import Mathlib

/-!
Shallow embedding of `relay.py` (Very-Simple-USB-Relay): a HID relay
controller with a report decoder (`get_switch_statuses_from_report`), a
getter/setter `state`, a `cleanup` method delegating to the HID handle
close, and an argparse-based `__main__` entry point.

Device I/O is modelled by recording the sequence of HID transport calls a
`state` invocation issues, with the device's feature report supplied as a
parameter (the device is the only source of the bytes read back). Python
exceptions (IndexError, AttributeError) are modelled as `none`.
-/

namespace USBRelay

/-- Little-endian binary digits of a natural number, with explicit fuel so
that the definition is structurally recursive and kernel-computable.
`binDigitsAux fuel n` agrees with `Nat.digits 2 n` whenever `n ≤ fuel`. -/
def binDigitsAux : Nat → Nat → List Nat
  | _, 0 => []
  | 0, _ + 1 => []
  | fuel + 1, n + 1 => ((n + 1) % 2) :: binDigitsAux fuel ((n + 1) / 2)

/-- Little-endian binary digits of `n` (empty for `0`). -/
def binDigits (n : Nat) : List Nat := binDigitsAux n n

theorem binDigitsAux_eq_digits :
    ∀ fuel n, n ≤ fuel → binDigitsAux fuel n = Nat.digits 2 n := by
  intro fuel
  induction fuel with
  | zero =>
    intro n hn
    interval_cases n
    simp [binDigitsAux]
  | succ fuel ih =>
    intro n hn
    match n with
    | 0 => simp [binDigitsAux]
    | m + 1 =>
      have hdiv : (m + 1) / 2 ≤ fuel := by omega
      show ((m + 1) % 2) :: binDigitsAux fuel ((m + 1) / 2) = Nat.digits 2 (m + 1)
      rw [ih _ hdiv, Nat.digits_def' (by norm_num : (1:Nat) < 2) (Nat.succ_pos m)]

theorem binDigits_eq_digits (n : Nat) : binDigits n = Nat.digits 2 n :=
  binDigitsAux_eq_digits n n le_rfl

/-- Python string formatting with format spec `08b` applied to a natural
number: the big-endian binary digit string of `n`, left-padded with `0`
characters to a minimum width of 8 (digits are modelled by their values,
composing the source's character rendering with its later `int(x)`). -/
def format08b (n : Nat) : List Nat :=
  let d := (binDigits n).reverse
  List.replicate (8 - d.length) 0 ++ d

/-- Python list subscription `xs[i]`: a negative index counts from the end
of the list; `none` models an IndexError. -/
def pyGet? {α : Type} (xs : List α) (i : Int) : Option α :=
  let j : Int := if i < 0 then (xs.length : Int) + i else i
  if 0 ≤ j then xs.get? j.toNat else none

/-- `Relay.get_switch_statuses_from_report` (relay.py lines 45-79): take
`report[7]`, render it with `'{0:08b}'.format`, turn each digit character
into an int, and reverse the resulting list. -/
def get_switch_statuses_from_report (report : List Nat) : Option (List Nat) :=
  (pyGet? report 7).map fun switch_statuses => (format08b switch_statuses).reverse

/-- One HID transport call issued by the `Relay` object. -/
inductive HidCall where
  | sendFeatureReport (message : List Int)
  | getFeatureReport
deriving DecidableEq, Repr

/-- The value returned by `Relay.state`: a single boolean for one relay
port, or the list of all eight statuses for port 0. -/
inductive Status where
  | single (b : Bool)
  | vector (v : List Bool)
deriving DecidableEq, Repr

/-- The `message` computed by `Relay.state` (relay.py lines 111-121) when
`turnon` is not `None`. -/
def writeMessage (relayport : Int) (turnon : Bool) : List Int :=
  if relayport = 0 then
    if turnon then [0xFE] else [0xFC]
  else
    if turnon then [0xFF, relayport] else [0xFD, relayport]

/-- `Relay.state` (relay.py lines 97-134), over a device whose
`get_feature_report` returns `deviceReport`. The first component records
the HID transport calls issued (a `send_feature_report` exactly when
`turnon` is not `None`, then the `get_feature_report` both branches of the
getter perform); the second is the returned status, `none` modelling the
IndexError raised by `switch_statuses[relayport - 1]` (or a short report). -/
def state (deviceReport : List Nat) (relayport : Int) (turnon : Option Bool) :
    List HidCall × Option Status :=
  let writes : List HidCall :=
    match turnon with
    | some t => [HidCall.sendFeatureReport (writeMessage relayport t)]
    | none => []
  let calls := writes ++ [HidCall.getFeatureReport]
  let result : Option Status :=
    match get_switch_statuses_from_report deviceReport with
    | none => none
    | some switch_statuses =>
      if relayport = 0 then
        some (Status.vector (switch_statuses.map fun s => s != 0))
      else
        (pyGet? switch_statuses (relayport - 1)).map fun s => Status.single (s != 0)
  (calls, result)

/-- State of the underlying HID device handle held by a `Relay`. -/
structure HidDevice where
  isOpen : Bool
deriving DecidableEq, Repr

/-- Modelled from the spec: `hid.device().close()` comes from the
cython-hidapi library, which is not part of this repository; per §4.1 of
the spec it releases the device handle and is safe to call when the handle
is already released. -/
def hidDeviceClose (d : HidDevice) : HidDevice := { d with isOpen := false }

/-- `Relay.cleanup` (relay.py lines 39-43): delegates to the handle's
`close`. -/
def cleanup (d : HidDevice) : HidDevice := hidDeviceClose d

/-- The argparse `Namespace` produced by the `__main__` block (relay.py
lines 138-143): attributes `port`, `switch`, `idVvendor` (note the double
`Vv`, from the flag string `--idVvendor`) and `idProduct`; every optional
value is a string when given and `None` when absent. -/
structure ArgNamespace where
  port : String
  switch : Option String
  idVvendor : Option String
  idProduct : Option String
deriving DecidableEq, Repr

/-- Python attribute access on the parsed namespace: `none` models the
AttributeError raised for a name argparse never registered. -/
def ArgNamespace.getattr (a : ArgNamespace) (name : String) : Option (Option String) :=
  if name = "port" then some (some a.port)
  else if name = "switch" then some a.switch
  else if name = "idVvendor" then some a.idVvendor
  else if name = "idProduct" then some a.idProduct
  else none

/-- A Python value produced by the id-override expressions: either an int
or a bool (`x is not None` yields a bool). -/
inductive PyVal where
  | int (n : Int)
  | bool (b : Bool)
deriving DecidableEq, Repr

/-- Python truthiness of an optional string: `None` and `""` are falsy. -/
def truthy : Option String → Bool
  | none => false
  | some s => s != ""

/-- The `idvendor` argument computed at relay.py line 153:
`args.idVendor is not None if args.idVendor else 0x16c0`. The source reads
attribute `idVendor`, while the parser registered `idVvendor`. -/
def mainVendorArg (args : ArgNamespace) : Option PyVal :=
  match args.getattr "idVendor" with
  | none => none
  | some v => some (if truthy v then PyVal.bool v.isSome else PyVal.int 0x16c0)

/-- The `idproduct` argument computed at relay.py line 154:
`args.idProduct is not None if args.idProduct else 0x05df`. -/
def mainProductArg (args : ArgNamespace) : Option PyVal :=
  match args.getattr "idProduct" with
  | none => none
  | some v => some (if truthy v then PyVal.bool v.isSome else PyVal.int 0x05df)

/-! ### Helper lemmas -/

theorem pyGet?_nonneg {α : Type} (xs : List α) (i : Int) (h : 0 ≤ i) :
    pyGet? xs i = xs.get? i.toNat := by
  simp only [pyGet?]
  rw [if_neg (show ¬ i < 0 by omega), if_pos h]

theorem pyGet?_neg {α : Type} (xs : List α) (i : Int) (h : i < 0)
    (h2 : 0 ≤ (xs.length : Int) + i) :
    pyGet? xs i = xs.get? ((xs.length : Int) + i).toNat := by
  simp only [pyGet?]
  rw [if_pos h, if_pos h2]

theorem pyGet?_neg_oob {α : Type} (xs : List α) (i : Int) (h : i < 0)
    (h2 : (xs.length : Int) + i < 0) :
    pyGet? xs i = none := by
  simp only [pyGet?]
  rw [if_pos h, if_neg (show ¬ (0:Int) ≤ (xs.length : Int) + i by omega)]

/-- Unfolding of the decoder through `Nat.digits`: the result is the
little-endian binary digits of `report[7]` padded with zeros up to
length 8. -/
theorem decode_eq (report : List Nat) (b : Nat) (h7 : pyGet? report 7 = some b) :
    get_switch_statuses_from_report report =
      some (Nat.digits 2 b ++ List.replicate (8 - (Nat.digits 2 b).length) 0) := by
  simp only [get_switch_statuses_from_report, h7, Option.map_some']
  congr 1
  simp [format08b, binDigits_eq_digits, List.reverse_append]

theorem digits_two_getD (i : Nat) : ∀ b, (Nat.digits 2 b).getD i 0 = b / 2 ^ i % 2 := by
  induction i with
  | zero =>
    intro b
    match b with
    | 0 => simp
    | m + 1 =>
      rw [Nat.digits_def' (by norm_num : (1:Nat) < 2) (Nat.succ_pos m)]
      simp
  | succ i ih =>
    intro b
    match b with
    | 0 => simp
    | m + 1 =>
      rw [Nat.digits_def' (by norm_num : (1:Nat) < 2) (Nat.succ_pos m)]
      simp only [List.getD_cons_succ]
      rw [ih, Nat.div_div_eq_div_mul, Nat.mul_comm, ← Nat.pow_succ]

theorem getD_replicate_zero : ∀ k i : Nat, (List.replicate k 0).getD i 0 = 0
  | 0, _ => by simp
  | _ + 1, 0 => by simp
  | k + 1, i + 1 => by
    simp only [List.replicate_succ, List.getD_cons_succ]
    exact getD_replicate_zero k i

theorem getD_append_replicate_zero : ∀ (L : List Nat) (k i : Nat),
    (L ++ List.replicate k 0).getD i 0 = L.getD i 0
  | [], k, i => by simp [getD_replicate_zero]
  | _ :: _, _, 0 => by simp
  | _ :: L, k, i + 1 => by
    simp only [List.cons_append, List.getD_cons_succ]
    exact getD_append_replicate_zero L k i

theorem digits_two_length_le (b : Nat) (hb : b ≤ 255) : (Nat.digits 2 b).length ≤ 8 := by
  rcases Nat.eq_zero_or_pos b with h0 | hpos
  · subst h0; simp
  · have h := Nat.base_pow_length_digits_le 2 b (by norm_num) (by omega)
    by_contra hlen
    push_neg at hlen
    have h9 : (2:Nat) ^ 9 ≤ 2 ^ (Nat.digits 2 b).length :=
      Nat.pow_le_pow_right (by norm_num) (by omega)
    have h2 : (2:Nat) ^ 9 ≤ 2 * b := le_trans h9 h
    norm_num at h2
    omega

theorem digits_two_length_gt (b : Nat) (hb : 255 < b) : 8 < (Nat.digits 2 b).length := by
  have h := Nat.lt_base_pow_length_digits (b := 2) (m := b) (by norm_num)
  by_contra hlen
  push_neg at hlen
  have hle : (2:Nat) ^ (Nat.digits 2 b).length ≤ 2 ^ 8 :=
    Nat.pow_le_pow_right (by norm_num) hlen
  have h2 : b < 2 ^ 8 := lt_of_lt_of_le h hle
  norm_num at h2
  omega

theorem decoded_mem_01 (b x : Nat)
    (hx : x ∈ Nat.digits 2 b ++ List.replicate (8 - (Nat.digits 2 b).length) 0) :
    x = 0 ∨ x = 1 := by
  rcases List.mem_append.mp hx with h | h
  · have := Nat.digits_lt_base (by norm_num) h
    omega
  · exact Or.inl (List.eq_of_mem_replicate h)

theorem ofDigits_replicate_zero (k : Nat) : Nat.ofDigits 2 (List.replicate k 0) = 0 := by
  induction k with
  | zero => simp
  | succ k ih => simp [List.replicate_succ, Nat.ofDigits_cons, ih]

theorem ofDigits_decoded (b k : Nat) :
    Nat.ofDigits 2 (Nat.digits 2 b ++ List.replicate k 0) = b := by
  rw [Nat.ofDigits_append, Nat.ofDigits_digits, ofDigits_replicate_zero]
  simp

theorem state_fst (r : List Nat) (c : Int) (o : Option Bool) :
    (state r c o).1 = (match o with
      | some t => [HidCall.sendFeatureReport (writeMessage c t)]
      | none => []) ++ [HidCall.getFeatureReport] := rfl

theorem state_snd (r : List Nat) (c : Int) (o : Option Bool) :
    (state r c o).2 = match get_switch_statuses_from_report r with
      | none => none
      | some switch_statuses =>
        if c = 0 then some (Status.vector (switch_statuses.map fun s => s != 0))
        else (pyGet? switch_statuses (c - 1)).map fun s => Status.single (s != 0) := rfl

theorem state_snd_decoded (r : List Nat) (c : Int) (o : Option Bool) (L : List Nat)
    (hd : get_switch_statuses_from_report r = some L) :
    (state r c o).2 = if c = 0 then some (Status.vector (L.map fun s => s != 0))
      else (pyGet? L (c - 1)).map fun s => Status.single (s != 0) := by
  rw [state_snd, hd]

theorem decoded_length_eight (b : Nat) (hb : b ≤ 255) :
    (Nat.digits 2 b ++ List.replicate (8 - (Nat.digits 2 b).length) 0).length = 8 := by
  have := digits_two_length_le b hb
  simp only [List.length_append, List.length_replicate]
  omega

theorem get?_eq_some_getD {α : Type} (L : List α) (d : α) :
    ∀ j, j < L.length → L.get? j = some (L.getD j d) := by
  induction L with
  | nil => intro j h; simp at h
  | cons a L ih =>
    intro j h
    cases j with
    | zero => rfl
    | succ j => simpa using ih j (by simpa using h)

theorem getD_map_bne (L : List Nat) : ∀ j : Nat,
    (L.map fun s => s != 0).getD j false = (L.getD j 0 != 0) := by
  induction L with
  | nil => intro j; simp
  | cons a L ih =>
    intro j
    cases j with
    | zero => simp
    | succ j => simpa using ih j

/-! ### Claims -/

/-- C1: for every feature report whose byte at index 7 is a value
`b ≤ 255`, `get_switch_statuses_from_report` returns exactly 8 bits with
element `i` equal to bit `i` of `b` (least-significant first), and
re-encoding the bit vector (little-endian) gives back `b`. The fixture
`[76,72,67,88,73,0,0,2]` is covered by the witness. -/
theorem C1_decode_bits (report : List Nat) (b : Nat)
    (h7 : pyGet? report 7 = some b) (hb : b ≤ 255) :
    ∃ v, get_switch_statuses_from_report report = some v ∧
      v.length = 8 ∧
      (∀ i, i < 8 → v.getD i 0 = b / 2 ^ i % 2) ∧
      Nat.ofDigits 2 v = b := by
  refine ⟨_, decode_eq report b h7, decoded_length_eight b hb, ?_, ofDigits_decoded b _⟩
  intro i _
  rw [getD_append_replicate_zero, digits_two_getD]

/-- Witness for C1 at the spec's fixture report `[76,72,67,88,73,0,0,2]`,
whose byte 7 is `2`; the decoded bit list is `[0,1,0,0,0,0,0,0]` and the
channel state vector is `[false,true,false,false,false,false,false,false]`. -/
theorem C1_decode_bits_witness :
    pyGet? [76,72,67,88,73,0,0,2] 7 = some 2 ∧ 2 ≤ 255 ∧
    (∃ v, get_switch_statuses_from_report [76,72,67,88,73,0,0,2] = some v ∧
      v.length = 8 ∧ (∀ i, i < 8 → v.getD i 0 = 2 / 2 ^ i % 2) ∧
      Nat.ofDigits 2 v = 2) ∧
    get_switch_statuses_from_report [76,72,67,88,73,0,0,2] = some [0,1,0,0,0,0,0,0] ∧
    (state [76,72,67,88,73,0,0,2] 0 none).2 =
      some (Status.vector [false, true, false, false, false, false, false, false]) :=
  ⟨by decide, by decide, C1_decode_bits _ 2 (by decide) (by decide), by decide, by decide⟩

/-- C2: the write encoding of `state` matches the spec's table: port 0
gives `[0xFE]`/`[0xFC]`, a port `n` in 1..8 gives `[0xFF, n]`/`[0xFD, n]`,
and that exact byte sequence is what the feature-report write sends. -/
theorem C2_write_encoding (n : Int) (h1 : 1 ≤ n) (h8 : n ≤ 8) (t : Bool) (report : List Nat) :
    writeMessage 0 true = [0xFE] ∧
    writeMessage 0 false = [0xFC] ∧
    writeMessage n true = [0xFF, n] ∧
    writeMessage n false = [0xFD, n] ∧
    (state report n (some t)).1 =
      [HidCall.sendFeatureReport (writeMessage n t), HidCall.getFeatureReport] ∧
    (state report 0 (some t)).1 =
      [HidCall.sendFeatureReport (writeMessage 0 t), HidCall.getFeatureReport] := by
  have hn : ¬ (n = 0) := by omega
  exact ⟨rfl, rfl, by simp [writeMessage, hn], by simp [writeMessage, hn], rfl, rfl⟩

/-- Witness for C2 at port 3, state on, over the fixture report. -/
theorem C2_write_encoding_witness :
    (1:Int) ≤ 3 ∧ (3:Int) ≤ 8 ∧
    (writeMessage 0 true = [0xFE] ∧
     writeMessage 0 false = [0xFC] ∧
     writeMessage 3 true = [0xFF, 3] ∧
     writeMessage 3 false = [0xFD, 3] ∧
     (state [76,72,67,88,73,0,0,2] 3 (some true)).1 =
       [HidCall.sendFeatureReport (writeMessage 3 true), HidCall.getFeatureReport] ∧
     (state [76,72,67,88,73,0,0,2] 0 (some true)).1 =
       [HidCall.sendFeatureReport (writeMessage 0 true), HidCall.getFeatureReport]) :=
  ⟨by decide, by decide, C2_write_encoding 3 (by decide) (by decide) true _⟩

/-- C3 counterexample: the claim says a channel outside 0..8 is rejected
before any device I/O, with no transport call issued; but
`state 9 (some true)` issues the feature-report write `[0xFF, 9]` followed
by the feature-report read. -/
theorem C3_counterexample :
    (state [76,72,67,88,73,0,0,2] 9 (some true)).1 =
      [HidCall.sendFeatureReport [0xFF, 9], HidCall.getFeatureReport] ∧
    (state [76,72,67,88,73,0,0,2] 9 (some true)).1 ≠ [] := by decide

/-- C3 amended: channel indices outside 0..8 are not validated at all:
`state` still performs the feature-report read (and, when `turnon` is
given, first sends the encoded write for that out-of-range channel); for a
channel `c ≥ 9` the call then fails with an IndexError after the read
instead of being rejected before I/O. -/
theorem C3_amended_no_validation (report : List Nat) (c : Int)
    (h : c < 0 ∨ 8 < c) (o : Option Bool) :
    HidCall.getFeatureReport ∈ (state report c o).1 ∧
    (∀ t, o = some t →
      HidCall.sendFeatureReport (writeMessage c t) ∈ (state report c o).1) ∧
    (∀ b, pyGet? report 7 = some b → b ≤ 255 → 9 ≤ c →
      (state report c o).2 = none) := by
  refine ⟨?_, ?_, ?_⟩
  · rw [state_fst]
    cases o <;> simp
  · intro t ht
    subst ht
    rw [state_fst]
    simp
  · intro b h7 hb hc
    rw [state_snd_decoded _ _ _ _ (decode_eq report b h7), if_neg (show ¬ (c = 0) by omega),
      pyGet?_nonneg _ _ (by omega)]
    have hlen := decoded_length_eight b hb
    have hnone : (Nat.digits 2 b ++ List.replicate (8 - (Nat.digits 2 b).length) 0).get?
        (c - 1).toNat = none := by
      rw [List.get?_eq_none]
      rw [hlen]
      omega
    rw [hnone]
    rfl

/-- Witness for the amended C3 at channel 9 with a write requested, over
the fixture report. -/
theorem C3_amended_no_validation_witness :
    ((9:Int) < 0 ∨ (8:Int) < 9) ∧
    (HidCall.getFeatureReport ∈ (state [76,72,67,88,73,0,0,2] 9 (some true)).1 ∧
     (∀ t, some true = some t →
       HidCall.sendFeatureReport (writeMessage 9 t) ∈
         (state [76,72,67,88,73,0,0,2] 9 (some true)).1) ∧
     (∀ b, pyGet? [76,72,67,88,73,0,0,2] 7 = some b → b ≤ 255 → (9:Int) ≤ 9 →
       (state [76,72,67,88,73,0,0,2] 9 (some true)).2 = none)) :=
  ⟨by decide, C3_amended_no_validation _ 9 (by decide) (some true)⟩

/-- C4: for a channel in 0..8, `state` always ends with a fresh
feature-report read (after the optional write), and returns the full
decoded 8-element boolean vector for channel 0, else the single boolean at
position `channel - 1` of that decoded vector. -/
theorem C4_fresh_read_and_result (report : List Nat) (b : Nat)
    (h7 : pyGet? report 7 = some b) (hb : b ≤ 255)
    (c : Int) (h0 : 0 ≤ c) (h8 : c ≤ 8) (o : Option Bool) :
    ∃ v, get_switch_statuses_from_report report = some v ∧
      (state report c o).1 = (match o with
        | some t => [HidCall.sendFeatureReport (writeMessage c t)]
        | none => []) ++ [HidCall.getFeatureReport] ∧
      (c = 0 → (state report c o).2 = some (Status.vector (v.map fun s => s != 0))) ∧
      (c ≠ 0 → (c - 1).toNat < v.length ∧
        (state report c o).2 = some (Status.single (v.getD (c - 1).toNat 0 != 0))) := by
  have hd := decode_eq report b h7
  have hlen := decoded_length_eight b hb
  refine ⟨_, hd, state_fst report c o, ?_, ?_⟩
  · intro hc
    rw [state_snd_decoded _ _ _ _ hd, if_pos hc]
  · intro hc
    have hidx : (c - 1).toNat < (Nat.digits 2 b ++
        List.replicate (8 - (Nat.digits 2 b).length) 0).length := by
      rw [hlen]; omega
    refine ⟨hidx, ?_⟩
    rw [state_snd_decoded _ _ _ _ hd, if_neg hc, pyGet?_nonneg _ _ (by omega),
      get?_eq_some_getD _ 0 _ hidx]
    rfl

/-- Witness for C4 at channel 2 with no write, over the fixture report. -/
theorem C4_fresh_read_and_result_witness :
    pyGet? [76,72,67,88,73,0,0,2] 7 = some 2 ∧ 2 ≤ 255 ∧ (0:Int) ≤ 2 ∧ (2:Int) ≤ 8 ∧
    (∃ v, get_switch_statuses_from_report [76,72,67,88,73,0,0,2] = some v ∧
      (state [76,72,67,88,73,0,0,2] 2 none).1 = (match (none : Option Bool) with
        | some t => [HidCall.sendFeatureReport (writeMessage 2 t)]
        | none => []) ++ [HidCall.getFeatureReport] ∧
      ((2:Int) = 0 → (state [76,72,67,88,73,0,0,2] 2 none).2 =
        some (Status.vector (v.map fun s => s != 0))) ∧
      ((2:Int) ≠ 0 → ((2:Int) - 1).toNat < v.length ∧
        (state [76,72,67,88,73,0,0,2] 2 none).2 =
          some (Status.single (v.getD ((2:Int) - 1).toNat 0 != 0)))) :=
  ⟨by decide, by decide, by decide, by decide,
   C4_fresh_read_and_result _ 2 (by decide) (by decide) 2 (by decide) (by decide) none⟩

/-- C5: for a fixed device report and a channel c in 1..8, the
single-channel query returns exactly element c-1 of the vector the
channel-0 query returns. -/
theorem C5_single_matches_vector (report : List Nat) (b : Nat)
    (h7 : pyGet? report 7 = some b) (hb : b ≤ 255)
    (c : Int) (h1 : 1 ≤ c) (h8 : c ≤ 8) :
    ∃ v, (state report 0 none).2 = some (Status.vector v) ∧
      (state report c none).2 = some (Status.single (v.getD (c - 1).toNat false)) := by
  have hd := decode_eq report b h7
  have hlen := decoded_length_eight b hb
  have hidx : (c - 1).toNat < (Nat.digits 2 b ++
      List.replicate (8 - (Nat.digits 2 b).length) 0).length := by
    rw [hlen]; omega
  refine ⟨_, by rw [state_snd_decoded _ _ _ _ hd]; rfl, ?_⟩
  rw [state_snd_decoded _ _ _ _ hd, if_neg (show ¬ (c = 0) by omega),
    pyGet?_nonneg _ _ (by omega), get?_eq_some_getD _ 0 _ hidx, getD_map_bne]
  rfl

/-- Witness for C5 at channel 2 over the fixture report. -/
theorem C5_single_matches_vector_witness :
    pyGet? [76,72,67,88,73,0,0,2] 7 = some 2 ∧ 2 ≤ 255 ∧ (1:Int) ≤ 2 ∧ (2:Int) ≤ 8 ∧
    (∃ v, (state [76,72,67,88,73,0,0,2] 0 none).2 = some (Status.vector v) ∧
      (state [76,72,67,88,73,0,0,2] 2 none).2 =
        some (Status.single (v.getD ((2:Int) - 1).toNat false))) :=
  ⟨by decide, by decide, by decide, by decide,
   C5_single_matches_vector _ 2 (by decide) (by decide) 2 (by decide) (by decide)⟩

/-- C6: a query-only call (turnon absent) issues no feature-report write:
the transport trace is exactly the single feature-report read. -/
theorem C6_query_only_no_write (report : List Nat) (c : Int) (h0 : 0 ≤ c) (h8 : c ≤ 8) :
    (state report c none).1 = [HidCall.getFeatureReport] ∧
    ∀ m, HidCall.sendFeatureReport m ∉ (state report c none).1 := by
  refine ⟨rfl, ?_⟩
  intro m hm
  rw [state_fst] at hm
  simp at hm

/-- Witness for C6 at channel 0 over the fixture report. -/
theorem C6_query_only_no_write_witness :
    (0:Int) ≤ 0 ∧ (0:Int) ≤ 8 ∧
    ((state [76,72,67,88,73,0,0,2] 0 none).1 = [HidCall.getFeatureReport] ∧
     ∀ m, HidCall.sendFeatureReport m ∉ (state [76,72,67,88,73,0,0,2] 0 none).1) :=
  ⟨by decide, by decide, C6_query_only_no_write _ 0 (by decide) (by decide)⟩

/-- C7 (code bug): the `__main__` block never passes the flag values
through. The source reads `args.idVendor` although the parser registered
the attribute `idVvendor`, so the vendor computation hits an
AttributeError for every invocation; and the product expression
`args.idProduct is not None if args.idProduct else 0x05df` evaluates to
the boolean `True` (not the given integer) whenever the flag is present.
Only the defaults-when-absent behaviour exists for the product id. -/
theorem C7_cli_id_override_bug :
    mainVendorArg ⟨"1", none, some "5824", some "1503"⟩ = none ∧
    mainVendorArg ⟨"1", none, none, none⟩ = none ∧
    mainProductArg ⟨"1", none, some "5824", some "1503"⟩ = some (PyVal.bool true) ∧
    mainProductArg ⟨"1", none, some "5824", some "1503"⟩ ≠ some (PyVal.int 1503) ∧
    mainProductArg ⟨"1", none, none, none⟩ = some (PyVal.int 0x05df) := by decide

/-- C8: `cleanup` is idempotent: repeating it any number of times beyond
the first changes nothing, it is total (no exception in the model), and it
leaves the handle released. -/
theorem C8_cleanup_idempotent (d : HidDevice) (n : Nat) :
    cleanup (cleanup d) = cleanup d ∧
    cleanup^[n + 1] d = cleanup d ∧
    (cleanup d).isOpen = false := by
  refine ⟨rfl, ?_, rfl⟩
  induction n with
  | zero => rfl
  | succ n ih =>
    rw [Function.iterate_succ_apply', ih]
    rfl

/-- C9: the exactly-8-elements invariant of the decoded vector depends on
`report[7] ≤ 255`: within range the decoder returns exactly 8 elements,
each 0 or 1, while for `report[7] > 255` it returns more than 8 elements
rather than failing or truncating. -/
theorem C9_decode_length_dichotomy (report : List Nat) (b : Nat)
    (h7 : pyGet? report 7 = some b) :
    (b ≤ 255 → ∃ v, get_switch_statuses_from_report report = some v ∧
      v.length = 8 ∧ ∀ x ∈ v, x = 0 ∨ x = 1) ∧
    (255 < b → ∃ v, get_switch_statuses_from_report report = some v ∧ 8 < v.length) := by
  constructor
  · intro hb
    exact ⟨_, decode_eq report b h7, decoded_length_eight b hb,
      fun x hx => decoded_mem_01 b x hx⟩
  · intro hb
    refine ⟨_, decode_eq report b h7, ?_⟩
    have := digits_two_length_gt b hb
    simp only [List.length_append, List.length_replicate]
    omega

/-- Witness for C9: byte 2 gives exactly 8 two-valued elements, and byte
300 gives a 9-element list. -/
theorem C9_decode_length_dichotomy_witness :
    (∃ v, get_switch_statuses_from_report [76,72,67,88,73,0,0,2] = some v ∧
      v.length = 8 ∧ ∀ x ∈ v, x = 0 ∨ x = 1) ∧
    (∃ v, get_switch_statuses_from_report [0,0,0,0,0,0,0,300] = some v ∧ 8 < v.length) :=
  ⟨(C9_decode_length_dichotomy _ 2 (by decide)).1 (by decide),
   (C9_decode_length_dichotomy _ 300 (by decide)).2 (by decide)⟩

/-- C10 counterexample: the claim says `state c` for negative `c` returns
channel `c + 9`'s state, e.g. `state (-1)` returns channel 8's state; on a
report whose byte 7 is 128 (only channel 8 on), `state (-1)` returns
`false` while channel 8's state (`state 8`) is `true` — `state (-1)`
actually lands on channel 7. Moreover `state (-8)`, inside the claimed
range -8..-1, fails with an IndexError rather than succeeding. -/
theorem C10_counterexample :
    (state [0,0,0,0,0,0,0,128] (-1) none).2 = some (Status.single false) ∧
    (state [0,0,0,0,0,0,0,128] 8 none).2 = some (Status.single true) ∧
    (state [0,0,0,0,0,0,0,128] (-8) none).2 = none := by decide

/-- C10 amended: for a channel `c` in -7..-1 with `turnon` absent,
`state c` does not fail: via Python negative list indexing it returns
exactly what `state (c + 8)` returns (e.g. `state (-1)` returns channel
7's state), silently accepting the out-of-range channel; the remaining
negative value `-8` fails with an IndexError after the device read. -/
theorem C10_amended_negative_indexing (report : List Nat) (b : Nat)
    (h7 : pyGet? report 7 = some b) (hb : b ≤ 255)
    (c : Int) (hlo : -7 ≤ c) (hhi : c ≤ -1) :
    (state report c none).2 = (state report (c + 8) none).2 ∧
    (∃ y, (state report c none).2 = some (Status.single y)) ∧
    (state report (-8) none).2 = none := by
  obtain ⟨L, hL, hlen⟩ : ∃ L, get_switch_statuses_from_report report = some L ∧
      L.length = 8 := ⟨_, decode_eq report b h7, decoded_length_eight b hb⟩
  have hLi : (L.length : Int) = 8 := by rw [hlen]; rfl
  have hneg : pyGet? L (c - 1) = L.get? ((L.length : Int) + (c - 1)).toNat :=
    pyGet?_neg _ _ (by omega) (by omega)
  have hpos : pyGet? L (c + 8 - 1) = L.get? (c + 8 - 1).toNat :=
    pyGet?_nonneg _ _ (by omega)
  have hix : ((L.length : Int) + (c - 1)).toNat = (c + 8 - 1).toNat := by omega
  have hlt : (c + 8 - 1).toNat < L.length := by omega
  refine ⟨?_, ?_, ?_⟩
  · rw [state_snd_decoded _ _ _ _ hL, state_snd_decoded _ _ _ _ hL,
      if_neg (show ¬ (c = 0) by omega), if_neg (show ¬ (c + 8 = 0) by omega),
      hneg, hpos, hix]
  · rw [state_snd_decoded _ _ _ _ hL, if_neg (show ¬ (c = 0) by omega), hneg, hix,
      get?_eq_some_getD _ 0 _ hlt]
    exact ⟨_, rfl⟩
  · rw [state_snd_decoded _ _ _ _ hL, if_neg (show ¬ ((-8:Int) = 0) by decide),
      pyGet?_neg_oob _ _ (by decide) (by omega)]
    rfl

/-- Witness for the amended C10 at channel -1 over a report whose byte 7
is 128. -/
theorem C10_amended_negative_indexing_witness :
    pyGet? [0,0,0,0,0,0,0,128] 7 = some 128 ∧ 128 ≤ 255 ∧
    (-7:Int) ≤ -1 ∧ (-1:Int) ≤ -1 ∧
    ((state [0,0,0,0,0,0,0,128] (-1) none).2 =
        (state [0,0,0,0,0,0,0,128] (-1 + 8) none).2 ∧
     (∃ y, (state [0,0,0,0,0,0,0,128] (-1) none).2 = some (Status.single y)) ∧
     (state [0,0,0,0,0,0,0,128] (-8) none).2 = none) :=
  ⟨by decide, by decide, by decide, by decide,
   C10_amended_negative_indexing _ 128 (by decide) (by decide) (-1) (by decide) (by decide)⟩

end USBRelay
